import Mathlib

/-!
Verification development for the deep.new agent workflow orchestration engine.

The embedding covers:
* the snapshot (de)serialization layer (`JVal`, `deserializeState`, `serializeState`);
* the workflow engine (`ExecutionContext` state, `markTaskComplete`,
  `createBreakpoint`, `executeTask` with its attempt loop, timeout wrapper
  semantics, abort flags, persistence effects);
* the agent-graph edge pattern handlers for the `loop` and `condition` patterns.

Pure data is translated directly from the TypeScript source
(`packages/ai/graph`); user-supplied callbacks (task `execute` bodies, routers,
error handlers, edge-config closures) are abstracted as Lean functions, and the
engine run is modelled as a fuel-indexed sequential interpreter that returns the
final state, the ordered list of observable effects (events emitted, persistence
writes, task executions dispatched) and the control outcome (normal return or
thrown error).
-/

namespace DeepNew

/-! ## JSON-ish runtime values (persistence layer)

`JVal` models the JavaScript values that flow through the persistence
serialization contract: primitives, arrays, plain objects, and the runtime
`Set` / `Map` collections.  `Set` is modelled as its (insertion-ordered) list of
elements and `Map` as its string-keyed entry list, which is exactly the
structure the serializer observes. -/

inductive JVal where
  | jnull : JVal
  | jundef : JVal
  | jbool : Bool → JVal
  | jnum : Int → JVal
  | jstr : String → JVal
  | jarr : List JVal → JVal
  | jobj : List (String × JVal) → JVal
  | jset : List JVal → JVal
  | jmap : List (String × JVal) → JVal

/-- Property lookup on an object field list (first match wins). -/
def jget (fs : List (String × JVal)) (k : String) : Option JVal :=
  match fs with
  | [] => none
  | (k2, v) :: rest => if k2 = k then some v else jget rest k

/-- JavaScript truthiness of a runtime value. -/
def jtruthy : JVal → Bool
  | .jnull => false
  | .jundef => false
  | .jbool b => b
  | .jnum n => n != 0
  | .jstr s => s != ""
  | .jarr _ => true
  | .jobj _ => true
  | .jset _ => true
  | .jmap _ => true

/-- `Object.entries` on a runtime value: own enumerable properties of objects,
index-keyed elements of arrays and strings, and nothing for other values
(a runtime `Set`/`Map` has no enumerable own properties). -/
def jsEntries : JVal → List (String × JVal)
  | .jobj fs => fs
  | .jarr xs => xs.enum.map (fun p => (toString p.1, p.2))
  | .jstr s => s.toList.enum.map (fun p => (toString p.1, JVal.jstr (String.mk [p.2])))
  | _ => []

/-- `x === "Map"` test against the `type` property. -/
def isTagMap : Option JVal → Bool
  | some (.jstr s) => s = "Map"
  | _ => false

/-- Test whether a `type` property equals `"Set"` or `"Map"`. -/
def isTagSetOrMap : Option JVal → Bool
  | some (.jstr s) => s = "Set" || s = "Map"
  | _ => false

mutual

/-- Translation of `WorkflowEngine.deserializeState`: `null`/`undefined` pass
through; an object shaped `{type:"Set", value:[...]}` becomes a `Set` of those
elements (not recursed); an object shaped `{type:"Map", value:v}` with truthy
`v` becomes a `Map` of `Object.entries(v)` (values not recursed); arrays and
remaining objects recurse elementwise and keywise (a runtime `Set`/`Map` reaching
this branch collapses to the empty object, as `Object.entries` yields nothing);
primitives pass through. -/
def deserializeState : JVal → JVal
  | .jnull => .jnull
  | .jundef => .jundef
  | .jobj fs =>
    match jget fs "type", jget fs "value" with
    | some (.jstr "Set"), some (.jarr xs) => .jset xs
    | tv, vv =>
      if isTagMap tv && jtruthy (vv.getD .jundef) then
        .jmap (jsEntries (vv.getD .jundef))
      else
        .jobj (deserializeFields fs)
  | .jarr xs => .jarr (deserializeList xs)
  | .jset _ => .jobj []
  | .jmap _ => .jobj []
  | .jbool b => .jbool b
  | .jnum n => .jnum n
  | .jstr s => .jstr s

def deserializeList : List JVal → List JVal
  | [] => []
  | x :: xs => deserializeState x :: deserializeList xs

def deserializeFields : List (String × JVal) → List (String × JVal)
  | [] => []
  | (k, v) :: fs => (k, deserializeState v) :: deserializeFields fs

end

mutual

/-- Modelled from the spec: the persistence serializer (the `PersistenceLayer`
source is not part of the snapshot; §4.6 gives its contract).  Sets serialize
to `{type:"Set", value:[...]}`, Maps to `{type:"Map", value:{...}}`, arrays and
plain objects recurse, primitives pass through; since the output must be plain
JSON, the contents of the `value` envelope are serialized recursively as well. -/
def serializeState : JVal → JVal
  | .jset xs => .jobj [("type", .jstr "Set"), ("value", .jarr (serializeList xs))]
  | .jmap fs => .jobj [("type", .jstr "Map"), ("value", .jobj (serializeFields fs))]
  | .jarr xs => .jarr (serializeList xs)
  | .jobj fs => .jobj (serializeFields fs)
  | .jnull => .jnull
  | .jundef => .jundef
  | .jbool b => .jbool b
  | .jnum n => .jnum n
  | .jstr s => .jstr s

def serializeList : List JVal → List JVal
  | [] => []
  | x :: xs => serializeState x :: serializeList xs

def serializeFields : List (String × JVal) → List (String × JVal)
  | [] => []
  | (k, v) :: fs => (k, serializeState v) :: serializeFields fs

end

mutual

/-- A value containing no runtime `Set` or `Map` anywhere. -/
def collFree : JVal → Bool
  | .jset _ => false
  | .jmap _ => false
  | .jarr xs => collFreeList xs
  | .jobj fs => collFreeFields fs
  | _ => true

def collFreeList : List JVal → Bool
  | [] => true
  | x :: xs => collFree x && collFreeList xs

def collFreeFields : List (String × JVal) → Bool
  | [] => true
  | (_, v) :: fs => collFree v && collFreeFields fs

end

mutual

/-- Snapshots on which serialize-then-deserialize is the structural identity:
every `Set` element and `Map` value is collection-free (deserialization does not
recurse inside the reconstructed collections), and no plain object carries a
`type` field equal to `"Set"` or `"Map"` (such objects would be mistaken for
serialization envelopes). -/
def roundtripSafe : JVal → Bool
  | .jset xs => collFreeList xs
  | .jmap fs => collFreeFields fs
  | .jarr xs => roundtripSafeList xs
  | .jobj fs => roundtripSafeFields fs && !isTagSetOrMap (jget fs "type")
  | _ => true

def roundtripSafeList : List JVal → Bool
  | [] => true
  | x :: xs => roundtripSafe x && roundtripSafeList xs

def roundtripSafeFields : List (String × JVal) → Bool
  | [] => true
  | (_, v) :: fs => roundtripSafe v && roundtripSafeFields fs

end

/-! ## Workflow engine

The engine section embeds `ExecutionContext` and `WorkflowEngine.executeTask`.
Task data values are modelled as natural numbers (`Val`); a task body is
abstracted per attempt as an `AttemptBehavior` describing the calls it makes to
the injected capabilities (`redirectTo`, `abort`, `interrupt`) and how it
finishes (return value with optional `next` routing field, or a thrown error).
Task timing records are not modelled: no claim observes them. -/

/-- Task payload data (`any` in the source). -/
abbrev Val := Nat

/-- Thrown errors distinguished by the engine: the `BreakpointError` sentinel,
the `Task "name" not found` error, and any other runtime error. -/
inductive Err where
  | breakpointErr : Err
  | notFound : String → Err
  | runtime : Nat → Err
deriving DecidableEq, Repr

/-- A routing destination: a task name, a list of task names (parallel fan-out
with shared data), or a list of `{task, data?}` records. `"end"` is the
literal task-name string. -/
inductive Route where
  | toTask : String → Route
  | toTasks : List String → Route
  | toRoutes : List (String × Option Val) → Route
deriving DecidableEq, Repr

/-- The mutable per-workflow state held by `ExecutionContext` (plus the
engine's uuid source for breakpoint ids). Sets are insertion-ordered duplicate
free lists, maps are association lists. -/
structure EngineState where
  completed : List String
  running : List String
  taskData : List (String × Val)
  counts : List (String × Nat)
  aborted : Bool
  graceful : Bool
  bpId : Option Nat
  bpData : Option Val
  bpTask : Option String
  nextUuid : Nat
deriving DecidableEq, Repr

/-- Observable effects of a run, in program order: `execute` invocations (with
the observation whether the task name was in `runningTasks` at call time),
`taskExecution` events, `onError` invocations, `abortWorkflow` calls,
persistence writes (carrying the snapshot saved), and successor dispatches. -/
inductive Effect where
  | execCall : String → Nat → Bool → Effect
  | taskExecutionEvt : String → Nat → Effect
  | onErrorCall : String → Nat → Effect
  | abortCalled : Bool → Effect
  | persist : EngineState → Effect
  | dispatch : String → Val → Effect
deriving DecidableEq, Repr

/-- Control outcome of `executeTask`: a normal return (`undefined` or the task
result), a thrown error, or interpreter fuel exhaustion (never reached by the
runs the theorems consider). -/
inductive RunResult where
  | ret : Option Val → RunResult
  | thrown : Err → RunResult
  | fuelOut : RunResult
deriving DecidableEq, Repr

/-- How a task body continues when its `interrupt(data)` call returns instead
of throwing (the timeout wrapper installs a no-op `interrupt`). -/
inductive InterruptCont where
  | thenRet : Val → Option Route → InterruptCont
  | thenThrow : Err → InterruptCont

/-- How a task body finishes an attempt: return a value (with the optional
`next` routing field of a `{result, next}` return shape, `none` for a bare
result), throw, or call `interrupt(data)`. -/
inductive TaskAction where
  | retVal : Val → Option Route → TaskAction
  | throwErr : Err → TaskAction
  | callInterrupt : Val → InterruptCont → TaskAction

/-- Behaviour of one `execute` invocation: the optional `abort(graceful)` call
it makes, the optional `redirectTo(route)` call it makes, and how it finishes. -/
structure AttemptBehavior where
  abortCall : Option Bool := none
  redirect : Option Route := none
  action : TaskAction

/-- The `{retry?, result?, next?}` object returned by an `onError` handler;
`hthrows` models the handler itself throwing (or returning a value whose
property access fails). -/
structure HandlerResult where
  hthrows : Bool := false
  retry : Bool := false
  result : Option Val := none
  next : Option Route := none

/-- A registered task (`TaskConfig` in the source): the `execute` body
(behaviour indexed by the attempt number within one `executeTask` invocation),
the router, dependencies, `retryCount`, `timeoutMs` and the optional `onError`
handler (behaviour indexed by the attempt number it is invoked for).  Routers
are modelled as pure functions of the task result. -/
structure TaskConfig where
  execute : Nat → AttemptBehavior
  route : Val → Option Route := fun _ => none
  dependencies : List String := []
  retryCount : Nat := 0
  timeoutMs : Option Nat := none
  onError : Option (Nat → HandlerResult) := none

/-- A workflow engine: the task registry and whether a persistence layer is
configured. -/
structure Engine where
  tasks : List (String × TaskConfig)
  hasPersistence : Bool := true

/-- Association list lookup (first match wins). -/
def lookupA {α : Type} (l : List (String × α)) (k : String) : Option α :=
  match l with
  | [] => none
  | (k2, v) :: rest => if k2 = k then some v else lookupA rest k

/-- Association list update (replace the first binding or append). -/
def setA {α : Type} (l : List (String × α)) (k : String) (v : α) : List (String × α) :=
  match l with
  | [] => [(k, v)]
  | (k2, v2) :: rest => if k2 = k then (k, v) :: rest else (k2, v2) :: setA rest k v

/-- Boolean membership test on a list of names (`Set.has`). -/
def memB (l : List String) (x : String) : Bool :=
  match l with
  | [] => false
  | y :: rest => if y = x then true else memB rest x

/-- `Set.add`: append unless already present. -/
def addElem (l : List String) (x : String) : List String :=
  if memB l x then l else l ++ [x]

/-- `Set.delete`: remove the element. -/
def removeElem (l : List String) (x : String) : List String :=
  l.filter (fun y => y ≠ x)

/-- `getTaskExecutionCount`. -/
def countOf (st : EngineState) (name : String) : Nat :=
  (lookupA st.counts name).getD 0

/-- Boolean `a <= b` on naturals (the JS comparison of the attempt loop),
recursing on the first argument so that `natLeB 0 b` reduces for symbolic
`b`. -/
def natLeB : Nat → Nat → Bool
  | 0, _ => true
  | _ + 1, 0 => false
  | a + 1, b + 1 => natLeB a b

/-- Boolean `a < b` on naturals. -/
def natLtB (a b : Nat) : Bool :=
  natLeB (a + 1) b

/-- Translation of `ExecutionContext.markTaskComplete`: a no-op under a
non-graceful abort; otherwise increments the task's execution count, emits a
`taskExecution` event with the new count, moves the name from `runningTasks`
to `completedTasks` and stores the task data. -/
def markTaskComplete (st : EngineState) (name : String) (v : Val) :
    EngineState × List Effect :=
  if st.aborted && !st.graceful then (st, [])
  else
    let newCount := countOf st name + 1
    ({ st with
        counts := setA st.counts name newCount,
        completed := addElem st.completed name,
        running := removeElem st.running name,
        taskData := setA st.taskData name v },
      [.taskExecutionEvt name newCount])

/-- An `abort(graceful)` call made from inside a task body
(`ExecutionContext.abortWorkflow`). -/
def applyAbort (st : EngineState) (call : Option Bool) : EngineState × List Effect :=
  match call with
  | none => (st, [])
  | some g => ({ st with aborted := true, graceful := g }, [.abortCalled g])

/-- Whether the registry has a task of this name. -/
def hasTask (eng : Engine) (name : String) : Bool :=
  (lookupA eng.tasks name).isSome

/-- The persistence write performed by `saveWorkflow` when a persistence layer
is configured, as a trace effect carrying the snapshot saved. -/
def persistEff (eng : Engine) (st : EngineState) : List Effect :=
  if eng.hasPersistence then [.persist st] else []

/-- Translation of `WorkflowEngine.createBreakpoint`: if the task is
registered, record `{id, taskName, data}` in the state (with a fresh uuid) and
save the workflow; otherwise throw a (plain) `Task not found` error. -/
def createBreakpoint (eng : Engine) (st : EngineState) (task : String) (d : Val) :
    EngineState × List Effect × Option Err :=
  if hasTask eng task then
    let st2 : EngineState :=
      { st with
          bpId := some st.nextUuid,
          bpData := some d,
          bpTask := some task,
          nextUuid := st.nextUuid + 1 }
    (st2, persistEff eng st2, none)
  else
    (st, [], some (.notFound task))

/-- The successor-resolution priority order of `executeTask` (lines 948-970):
the imperative `redirectTo` argument wins, then the `next` field of the return
value, then the router's returned value. -/
def resolveNext (redirectArg directNext routerOut : Option Route) : Option Route :=
  match redirectArg with
  | some r => some r
  | none =>
    match directNext with
    | some r => some r
    | none => routerOut

/-- `taskRedirect` update: a `redirectTo` call made during the attempt
overwrites the remembered redirect, otherwise the old value persists. -/
def orElseR (a b : Option Route) : Option Route :=
  match a with
  | some r => some r
  | none => b

/-- JavaScript truthiness of a routing destination (`if (nextTasks)`): the
empty string is falsy, arrays are truthy. -/
def routeTruthy : Route → Bool
  | .toTask n => n ≠ ""
  | .toTasks _ => true
  | .toRoutes _ => true

/-- The `(task, data)` pairs dispatched for a destination: a single name gets
the task result, a name list fans out the result to each, a `{task, data?}`
list uses each entry's own data when defined. -/
def routePairs (r : Route) (res : Val) : List (String × Val) :=
  match r with
  | .toTask n => [(n, res)]
  | .toTasks ns => ns.map (fun n => (n, res))
  | .toRoutes rs => rs.map (fun p => (p.1, p.2.getD res))

/-- Outcome of dispatching a list of successors. -/
inductive DOut where
  | ok : DOut
  | errOut : Err → DOut
  | fuelBail : DOut
deriving DecidableEq, Repr

/-- Outcome of the `try` block of one attempt: a value to return, an error to
be handled by the `catch` block, or fuel exhaustion. -/
inductive TryOut where
  | returned : Option Val → TryOut
  | threw : Err → TryOut
  | fuelBail : TryOut


mutual

/-- Translation of `WorkflowEngine.executeTask` up to the attempt loop:
skip when aborted non-gracefully; throw `Task not found` for an unregistered
name; return silently when a dependency is incomplete; reset the completion
flag of an already-completed task; return when the task is already running;
otherwise add the name to `runningTasks` and enter the attempt loop at
`attempt = 0`.  `fuel` bounds the recursion depth (every recursive step of the
interpreter consumes one unit); the runs the theorems consider never exhaust
it. -/
def executeTask (eng : Engine) (fuel : Nat) (st : EngineState) (name : String)
    (data : Val) : EngineState × List Effect × RunResult :=
  match fuel with
  | 0 => (st, [], .fuelOut)
  | fuel2 + 1 =>
    if st.aborted && !st.graceful then (st, [], .ret none)
    else
      match lookupA eng.tasks name with
      | none => (st, [], .thrown (.notFound name))
      | some cfg =>
        if !(cfg.dependencies.all (fun d => memB st.completed d)) then
          (st, [], .ret none)
        else
          let st1 :=
            if memB st.completed name then
              { st with completed := removeElem st.completed name }
            else st
          if memB st1.running name then (st1, [], .ret none)
          else
            let st2 := { st1 with running := addElem st1.running name }
            attemptLoop eng fuel2 name cfg data st2 none 0
termination_by structural fuel

/-- The `while (attempt <= retryCount)` loop of `executeTask`, with
`attemptIdx` the current value of `attempt`; the guard is re-tested on entry
exactly as in the source (falling out of the loop returns `undefined`, which
is unreachable from `executeTask`).

The `try` block: invoke `execute` (through the timeout wrapper when
`timeoutMs` is set, whose parameter bundle carries a no-op `interrupt`, and
directly otherwise, where `interrupt(d)` marks the task complete with `d`,
creates a breakpoint, persists, and throws `BreakpointError`); then continue
in `successPath` with the returned result and routing field.

The `catch` block (attempt incremented): a `BreakpointError` returns silently;
with an `onError` handler, a requested retry with attempts remaining continues
the loop, a defined handler result completes the task (persist, dispatch
`next`, return; a dispatch error is swallowed by the handler try block and
falls through to the exhaustion check with the original error); otherwise the
error is rethrown once `attempt > retryCount`, else the loop continues. -/
def attemptLoop (eng : Engine) (fuel : Nat) (name : String) (cfg : TaskConfig)
    (data : Val) (st : EngineState) (tr : Option Route) (attemptIdx : Nat) :
    EngineState × List Effect × RunResult :=
  match fuel with
  | 0 => (st, [], .fuelOut)
  | fuel2 + 1 =>
    if !(natLeB attemptIdx cfg.retryCount) then (st, [], .ret none)
    else
      let b := cfg.execute attemptIdx
      let noopInterrupt := cfg.timeoutMs.isSome
      let eff0 : List Effect := [.execCall name attemptIdx (memB st.running name)]
      let stepA := applyAbort st b.abortCall
      let tr2 : Option Route := orElseR b.redirect tr
      let tryRes : EngineState × List Effect × TryOut :=
        match b.action with
        | .throwErr e => (stepA.1, eff0 ++ stepA.2, .threw e)
        | .callInterrupt d cont =>
          if noopInterrupt then
            match cont with
            | .thenThrow e => (stepA.1, eff0 ++ stepA.2, .threw e)
            | .thenRet v nxt =>
              successPath eng fuel2 name cfg stepA.1 (eff0 ++ stepA.2) tr2 v nxt
          else
            let stepM := markTaskComplete stepA.1 name d
            let stepB := createBreakpoint eng stepM.1 name d
            match stepB.2.2 with
            | none =>
              (stepB.1, eff0 ++ stepA.2 ++ stepM.2 ++ stepB.2.1, .threw .breakpointErr)
            | some e =>
              (stepB.1, eff0 ++ stepA.2 ++ stepM.2 ++ stepB.2.1, .threw e)
        | .retVal v nxt => successPath eng fuel2 name cfg stepA.1 (eff0 ++ stepA.2) tr2 v nxt
      match tryRes.2.2 with
      | .returned v => (tryRes.1, tryRes.2.1, .ret v)
      | .fuelBail => (tryRes.1, tryRes.2.1, .fuelOut)
      | .threw e =>
        if e = .breakpointErr then (tryRes.1, tryRes.2.1, .ret none)
        else
          match cfg.onError with
          | none =>
            if natLtB cfg.retryCount (attemptIdx + 1) then (tryRes.1, tryRes.2.1, .thrown e)
            else
              let rec2 := attemptLoop eng fuel2 name cfg data tryRes.1 tr2 (attemptIdx + 1)
              (rec2.1, tryRes.2.1 ++ rec2.2.1, rec2.2.2)
          | some h =>
            let hr := h attemptIdx
            let effO := tryRes.2.1 ++ [.onErrorCall name attemptIdx]
            if hr.hthrows then
              if natLtB cfg.retryCount (attemptIdx + 1) then (tryRes.1, effO, .thrown e)
              else
                let rec2 := attemptLoop eng fuel2 name cfg data tryRes.1 tr2 (attemptIdx + 1)
                (rec2.1, effO ++ rec2.2.1, rec2.2.2)
            else if hr.retry && natLeB (attemptIdx + 1) cfg.retryCount then
              let rec2 := attemptLoop eng fuel2 name cfg data tryRes.1 tr2 (attemptIdx + 1)
              (rec2.1, effO ++ rec2.2.1, rec2.2.2)
            else
              match hr.result with
              | none =>
                if natLtB cfg.retryCount (attemptIdx + 1) then (tryRes.1, effO, .thrown e)
                else
                  let rec2 := attemptLoop eng fuel2 name cfg data tryRes.1 tr2 (attemptIdx + 1)
                  (rec2.1, effO ++ rec2.2.1, rec2.2.2)
              | some rv =>
                let stepM := markTaskComplete tryRes.1 name rv
                let effM := effO ++ stepM.2 ++ persistEff eng stepM.1
                match hr.next with
                | none => (stepM.1, effM, .ret (some rv))
                | some r =>
                  if routeTruthy r then
                    let stepD := dispatchList eng fuel2 stepM.1 (routePairs r rv)
                    match stepD.2.2 with
                    | .ok => (stepD.1, effM ++ stepD.2.1, .ret (some rv))
                    | .fuelBail => (stepD.1, effM ++ stepD.2.1, .fuelOut)
                    | .errOut _ =>
                      if natLtB cfg.retryCount (attemptIdx + 1) then
                        (stepD.1, effM ++ stepD.2.1, .thrown e)
                      else
                        let rec2 :=
                          attemptLoop eng fuel2 name cfg data stepD.1 tr2 (attemptIdx + 1)
                        (rec2.1, effM ++ stepD.2.1 ++ rec2.2.1, rec2.2.2)
                  else (stepM.1, effM, .ret (some rv))
termination_by structural fuel

/-- The success continuation of the `try` block after `execute` returned
`result` with routing field `nxt` (see `attemptLoop`): `markTaskComplete`,
persist, re-read the count and emit a second `taskExecution` event; stop here
under a non-graceful abort; resolve the successor by `resolveNext`; on the
literal string `"end"` persist and return; otherwise dispatch the (truthy)
successors, whose thrown errors surface in this attempt, persist and return. -/
def successPath (eng : Engine) (fuel : Nat) (name : String) (cfg : TaskConfig)
    (st : EngineState) (effPre : List Effect) (tr2 : Option Route) (v : Val)
    (nxt : Option Route) : EngineState × List Effect × TryOut :=
  match fuel with
  | 0 => (st, effPre, .fuelBail)
  | fuel2 + 1 =>
    let stepM := markTaskComplete st name v
    let effMid := effPre ++ stepM.2 ++ persistEff eng stepM.1 ++
      [.taskExecutionEvt name (countOf stepM.1 name)]
    if stepM.1.aborted && !stepM.1.graceful then (stepM.1, effMid, .returned (some v))
    else
      let nextTasks := resolveNext tr2 nxt (cfg.route v)
      if nextTasks = some (.toTask "end") then
        (stepM.1, effMid ++ persistEff eng stepM.1, .returned (some v))
      else
        match nextTasks with
        | none => (stepM.1, effMid ++ persistEff eng stepM.1, .returned (some v))
        | some r =>
          if routeTruthy r then
            let stepD := dispatchList eng fuel2 stepM.1 (routePairs r v)
            match stepD.2.2 with
            | .ok => (stepD.1, effMid ++ stepD.2.1 ++ persistEff eng stepD.1, .returned (some v))
            | .errOut e => (stepD.1, effMid ++ stepD.2.1, .threw e)
            | .fuelBail => (stepD.1, effMid ++ stepD.2.1, .fuelBail)
          else (stepM.1, effMid ++ persistEff eng stepM.1, .returned (some v))
termination_by structural fuel

/-- Sequential linearization of the (awaited) successor dispatches: run each
`(task, data)` pair in order, stopping at the first thrown error, which the
caller observes. -/
def dispatchList (eng : Engine) (fuel : Nat) (st : EngineState)
    (pairs : List (String × Val)) : EngineState × List Effect × DOut :=
  match fuel with
  | 0 => (st, [], .fuelBail)
  | fuel2 + 1 =>
    match pairs with
    | [] => (st, [], .ok)
    | (nm, d) :: rest =>
      let stepC := executeTask eng fuel2 st nm d
      let effC := Effect.dispatch nm d :: stepC.2.1
      match stepC.2.2 with
      | .thrown e => (stepC.1, effC, .errOut e)
      | .fuelOut => (stepC.1, effC, .fuelBail)
      | .ret _ =>
        let stepR := dispatchList eng fuel2 stepC.1 rest
        (stepR.1, effC ++ stepR.2.1, stepR.2.2)
termination_by structural fuel

end


/-! ## Agent graph: edge pattern handlers

The `loop` and `condition` edge pattern handlers are translated from the
source; the `AgentGraph` methods they call (`getNode`, `processAgentMessage`,
`processReasoningStep`, `shouldStop`, `executeNode`, `withFallback`) live in
`agent-graph.ts`, which is not part of the source snapshot, and are therefore
abstracted from the spec (§4.7): LLM calls are oracles carried by the graph
structure and recorded as trace effects, and `withFallback` simply runs its
action, since no action of the pure embedding throws. -/

/-- A graph node (the fields the handlers consult). -/
structure NodeInfo where
  name : String
  enableReasoning : Bool := false

/-- Modelled from the spec: the `AgentGraph` environment of the handlers
(`agent-graph.ts` is missing from the snapshot). `nodes` backs `getNode`;
`agentMessage` abstracts `processAgentMessage` (the main LLM call, returning
the response for a node and prompt); `reasoningMsg` abstracts
`processReasoningStep`. -/
structure AgentGraph where
  nodes : List (String × NodeInfo)
  agentMessage : String → String → String
  reasoningMsg : String → String → String

/-- The graph execution state the handlers mutate (`executionState.results`,
`executionState.completed`) plus a uuid source for node invocation ids. -/
structure GraphState where
  results : List (String × String)
  completed : List String
  uuid : Nat
deriving DecidableEq, Repr

/-- Observable effects of a handler run: main LLM invocations (node, prompt),
reasoning `pending` events, and `executeNode` dispatches. -/
inductive GEffect where
  | agentMsg : String → String → GEffect
  | reasoningEvt : String → String → GEffect
  | nodeExecuted : String → String → GEffect
deriving DecidableEq, Repr

/-- An entry of the accumulating `responses` list. -/
structure MessageResponse where
  nodeId : Nat
  response : String
deriving DecidableEq, Repr

/-- JavaScript `Array.join(sep)`. -/
def joinSep (sep : String) : List String → String
  | [] => ""
  | [x] => x
  | x :: xs => x ++ sep ++ joinSep sep xs

/-- Modelled from the spec: `AgentGraph.shouldStop` evaluates the
user-supplied stop predicate on the current response, false when absent. -/
def shouldStop (sc : Option (String → Bool)) (resp : String) : Bool :=
  match sc with
  | some f => f resp
  | none => false

/-- The config record of a loop-pattern edge (closures abstracted as pure
functions of the data they inspect). -/
structure LoopConfig where
  maxIterations : Option Nat := none
  stopCondition : Option (String → Bool) := none
  inputTransform : Option (String → String) := none
  outputTransform : Option (List String → String) := none

/-- A loop-pattern edge; `efrom`/`eto` are the source's `from`/`to`
(`from` is a Lean keyword). -/
structure LoopEdge where
  efrom : String
  eto : String
  config : Option LoopConfig := none

/-- The `while (iterations < maxIterations)` body of `LoopEdgeHandler.handle`:
stop early when `shouldStop` holds; otherwise transform the input, run the
`to` node (with an optional reasoning pre-step and event), then the `from`
node on its output, pushing both responses, and continue with the `from`
response as the new current response. -/
def loopIterations (g : AgentGraph) (cfgL : LoopConfig) (toNode fromNode : NodeInfo)
    (st : GraphState) (responses : List MessageResponse) (loopResponses : List String)
    (current : String) :
    (remaining : Nat) →
      GraphState × List GEffect × List MessageResponse × List String × String
  | 0 => (st, [], responses, loopResponses, current)
  | k + 1 =>
    if shouldStop cfgL.stopCondition current then (st, [], responses, loopResponses, current)
    else
      let input :=
        match cfgL.inputTransform with
        | some f => f current
        | none => current
      let nodeId1 := st.uuid
      let reasoning1 :=
        if toNode.enableReasoning then g.reasoningMsg toNode.name input else ""
      let effR1 : List GEffect :=
        if toNode.enableReasoning then [.reasoningEvt toNode.name reasoning1] else []
      let prompt1 := if reasoning1 ≠ "" then reasoning1 ++ "\n\n" ++ input else input
      let toResponse := g.agentMessage toNode.name prompt1
      let nodeId2 := st.uuid + 1
      let reasoning2 :=
        if fromNode.enableReasoning then g.reasoningMsg fromNode.name toResponse else ""
      let effR2 : List GEffect :=
        if fromNode.enableReasoning then [.reasoningEvt fromNode.name reasoning2] else []
      let prompt2 :=
        if reasoning2 ≠ "" then reasoning2 ++ "\n\n" ++ toResponse else toResponse
      let fromResponse := g.agentMessage fromNode.name prompt2
      let st2 := { st with uuid := st.uuid + 2 }
      let stepRec := loopIterations g cfgL toNode fromNode st2
        (responses ++ [⟨nodeId1, toResponse⟩, ⟨nodeId2, fromResponse⟩])
        (loopResponses ++ [toResponse, fromResponse]) fromResponse k
      (stepRec.1,
        effR1 ++ [.agentMsg toNode.name prompt1] ++ effR2 ++
          [.agentMsg fromNode.name prompt2] ++ stepRec.2.1,
        stepRec.2.2)

/-- One edge of `LoopEdgeHandler.handle` (the body wrapped in `withFallback`,
which runs it directly since nothing in the pure embedding throws): default
`maxIterations` is 3; a missing endpoint node returns early leaving the final
response unchanged; otherwise run the iterations, combine the collected
responses via `outputTransform` or a double-newline join, record the result
under the `from` node and mark both endpoints completed. -/
def loopHandleEdge (g : AgentGraph) (st : GraphState) (responses : List MessageResponse)
    (sourceResponse finalResponse : String) (e : LoopEdge) :
    GraphState × List GEffect × List MessageResponse × String :=
  let cfgL := e.config.getD {}
  let maxIterations := cfgL.maxIterations.getD 3
  match lookupA g.nodes e.eto, lookupA g.nodes e.efrom with
  | some toNode, some fromNode =>
    let step := loopIterations g cfgL toNode fromNode st responses [sourceResponse]
      sourceResponse maxIterations
    let final2 :=
      match cfgL.outputTransform with
      | some f => f step.2.2.2.1
      | none => joinSep "\n\n" step.2.2.2.1
    let stF :=
      { step.1 with
          results := setA step.1.results e.efrom final2,
          completed := addElem (addElem step.1.completed e.eto) e.efrom }
    (stF, step.2.1, step.2.2.1, final2)
  | _, _ => (st, [], responses, finalResponse)

/-- `LoopEdgeHandler.handle` over the edge list: each edge restarts from the
source response; the final response of the last edge that ran (initially the
source response) is returned. -/
def loopHandleList (g : AgentGraph) (st : GraphState) (responses : List MessageResponse)
    (sourceResponse finalResponse : String) :
    (edges : List LoopEdge) → GraphState × List GEffect × List MessageResponse × String
  | [] => (st, [], responses, finalResponse)
  | e :: rest =>
    let step := loopHandleEdge g st responses sourceResponse finalResponse e
    let stepR := loopHandleList g step.1 step.2.2.1 sourceResponse step.2.2.2 rest
    (stepR.1, step.2.1 ++ stepR.2.1, stepR.2.2.1, stepR.2.2.2)

/-- `LoopEdgeHandler.handle`. -/
def loopHandle (g : AgentGraph) (st : GraphState) (responses : List MessageResponse)
    (sourceResponse : String) (edges : List LoopEdge) :
    GraphState × List GEffect × List MessageResponse × String :=
  loopHandleList g st responses sourceResponse sourceResponse edges

/-- The immediate JavaScript value returned by a condition closure: a
primitive, a plain object, or a `Promise` (recording what it would resolve
to); truthiness does not await it. -/
inductive CondVal where
  | vBool : Bool → CondVal
  | vNull : CondVal
  | vUndef : CondVal
  | vNum : Int → CondVal
  | vStr : String → CondVal
  | vPromise : Bool → CondVal
  | vObj : CondVal
deriving DecidableEq, Repr

/-- JavaScript truthiness of the immediate condition value: `false`, `null`,
`undefined`, `0` and `""` are falsy; every object, including a `Promise`
(whatever it resolves to), is truthy. -/
def condTruthy : CondVal → Bool
  | .vBool b => b
  | .vNull => false
  | .vUndef => false
  | .vNum n => n != 0
  | .vStr s => s != ""
  | .vPromise _ => true
  | .vObj => true

/-- The config record of a condition-pattern edge. -/
structure CondConfig where
  condition : Option (String → CondVal) := none

/-- A condition-pattern edge. -/
structure CondEdge where
  efrom : String
  eto : String
  config : Option CondConfig := none

/-- Whether `edge.config?.condition?.({response, nodes})` is truthy: false
when the config or the condition is absent, otherwise the truthiness of the
condition's immediate return value. -/
def condFires (e : CondEdge) (sourceResponse : String) : Bool :=
  match e.config with
  | none => false
  | some c =>
    match c.condition with
    | none => false
    | some f => condTruthy (f sourceResponse)

/-- Modelled from the spec: `AgentGraph.executeNode` (`agent-graph.ts` is
missing from the snapshot) processes the destination node with the given
input: runs the main LLM invocation, records the output in
`executionState.results`, appends it to `responses` and marks the node
completed.  Onward edge traversal from the destination is beyond the scope of
the condition-handler claims and is not modelled. -/
def executeNode (g : AgentGraph) (st : GraphState) (responses : List MessageResponse)
    (nodeName : String) (input : String) :
    GraphState × List GEffect × List MessageResponse :=
  let out := g.agentMessage nodeName input
  ({ st with
      results := setA st.results nodeName out,
      completed := addElem st.completed nodeName,
      uuid := st.uuid + 1 },
    [.nodeExecuted nodeName input, .agentMsg nodeName input],
    responses ++ [⟨st.uuid, out⟩])

/-- `ConditionEdgeHandler.handle`: for each edge, execute the destination node
(under `withFallback`, which runs it directly in the pure embedding) exactly
when the condition fires; the source response is returned. -/
def conditionHandle (g : AgentGraph) (st : GraphState) (responses : List MessageResponse)
    (sourceResponse : String) :
    (edges : List CondEdge) → GraphState × List GEffect × List MessageResponse × String
  | [] => (st, [], responses, sourceResponse)
  | e :: rest =>
    if condFires e sourceResponse then
      let step := executeNode g st responses e.eto sourceResponse
      let stepR := conditionHandle g step.1 step.2.2 sourceResponse rest
      (stepR.1, step.2.1 ++ stepR.2.1, stepR.2.2.1, stepR.2.2.2)
    else conditionHandle g st responses sourceResponse rest


/-! ## Scenario definitions used by the theorems -/

/-- The state of a freshly constructed workflow (`ExecutionContext`
constructor). -/
def initState : EngineState :=
  { completed := [], running := [], taskData := [], counts := [],
    aborted := false, graceful := false,
    bpId := none, bpData := none, bpTask := none, nextUuid := 0 }

/-- Classifier: is this effect an `execute` invocation? -/
def isExecCall : Effect → Bool
  | .execCall _ _ _ => true
  | _ => false

/-- Classifier: is this effect a `taskExecution` event? -/
def isTaskExecutionEvt : Effect → Bool
  | .taskExecutionEvt _ _ => true
  | _ => false

/-- Classifier: is this effect an `onError` invocation? -/
def isOnErrorCall : Effect → Bool
  | .onErrorCall _ _ => true
  | _ => false

/-- Classifier: is this effect a successor dispatch? -/
def isDispatch : Effect → Bool
  | .dispatch _ _ => true
  | _ => false

/-- Classifier: is this effect a persistence write? -/
def isPersist : Effect → Bool
  | .persist _ => true
  | _ => false

/-- Classifier: is this graph effect an `executeNode` dispatch? -/
def isNodeExecuted : GEffect → Bool
  | .nodeExecuted _ _ => true
  | _ => false

/-- A task whose body calls `interrupt(d)` on every attempt (continuing with
`cont` if `interrupt` returns), with the given `retryCount` and `timeoutMs`. -/
def interruptTask (retries : Nat) (tmo : Option Nat) (d : Val) (cont : InterruptCont) :
    TaskConfig :=
  { execute := fun _ => { action := .callInterrupt d cont },
    retryCount := retries, timeoutMs := tmo }

/-- A single-task engine around `interruptTask`, with persistence. -/
def interruptEngine (retries : Nat) (tmo : Option Nat) (d : Val) (cont : InterruptCont) :
    Engine :=
  { tasks := [("T", interruptTask retries tmo d cont)], hasPersistence := true }

/-- A task that plainly returns `v` (no routing, terminal router). -/
def plainTask (v : Val) : TaskConfig :=
  { execute := fun _ => { action := .retVal v none } }

/-- A single-task engine around `plainTask`, with persistence. -/
def plainEngine (v : Val) : Engine :=
  { tasks := [("B", plainTask v)], hasPersistence := true }

/-- A fresh state in which task `"B"` has already completed `c` times. -/
def countedState (c : Nat) : EngineState :=
  { initState with counts := [("B", c)] }

/-- A task whose body throws `e` on every attempt (no `onError`). -/
def failingTask (retries : Nat) (e : Err) : TaskConfig :=
  { execute := fun _ => { action := .throwErr e }, retryCount := retries }

/-- A single-task engine around `failingTask`, with persistence. -/
def failingEngine (retries : Nat) (e : Err) : Engine :=
  { tasks := [("T", failingTask retries e)], hasPersistence := true }

/-- A task whose body throws `e` on every attempt, with `retryCount` and an
`onError` handler. -/
def handledFailingTask (retries : Nat) (e : Err) (h : Nat → HandlerResult) : TaskConfig :=
  { execute := fun _ => { action := .throwErr e },
    retryCount := retries,
    onError := some h }

/-- A single-task engine around `handledFailingTask`, with persistence. -/
def handledFailingEngine (retries : Nat) (e : Err) (h : Nat → HandlerResult) : Engine :=
  { tasks := [("T", handledFailingTask retries e h)], hasPersistence := true }

/-- A task that calls `redirectTo rho` when `rho` is set, returns
`{result: v, next: delta}` (bare `v` when `delta` is absent), and routes
through `q`. -/
def routedTask (rho delta : Option Route) (q : Val → Option Route) (v : Val) : TaskConfig :=
  { execute := fun _ => { redirect := rho, action := .retVal v delta },
    route := q }

/-- A single-task engine around `routedTask`, with persistence. -/
def routedEngine (rho delta : Option Route) (q : Val → Option Route) (v : Val) : Engine :=
  { tasks := [("T", routedTask rho delta q v)], hasPersistence := true }

/-- A task that calls `abort(false)` during its body and then returns 5. -/
def abortingTask : TaskConfig :=
  { execute := fun _ => { abortCall := some false, action := .retVal 5 none } }

/-- A single-task engine around `abortingTask`, with persistence. -/
def abortingEngine : Engine :=
  { tasks := [("T", abortingTask)], hasPersistence := true }


/-- The run considered by the C1 theorems: a fresh workflow executing the
single registered task `"T"` whose body calls `interrupt(d)` on every
attempt. -/
def interruptRun (retries : Nat) (tmo : Option Nat) (d : Val) (cont : InterruptCont)
    (d0 : Val) : EngineState × List Effect × RunResult :=
  executeTask (interruptEngine retries tmo d cont) 9 initState "T" d0

/-- The run considered by the C2 theorems: task `"B"` (with `c` prior
completions) plainly returning `v`. -/
def plainRun (c v : Nat) : EngineState × List Effect × RunResult :=
  executeTask (plainEngine v) 9 (countedState c) "B" 0

/-- The run considered by the C3/C8 theorems: task `"T"` throwing `e` on every
attempt with the given `retryCount`. -/
def failingRun (retries : Nat) (e : Err) : EngineState × List Effect × RunResult :=
  executeTask (failingEngine retries e) (retries + 9) initState "T" 0

/-- The run considered by the C4 theorems: task `"T"` throwing `e` on every
attempt, with an `onError` handler. -/
def handledFailingRun (retries : Nat) (e : Err) (h : Nat → HandlerResult) :
    EngineState × List Effect × RunResult :=
  executeTask (handledFailingEngine retries e h) (retries + 9) initState "T" 0

/-- The run considered by the C5 theorem: task `"T"` returning `v` with
redirect `rho`, return-value `next` field `delta`, and router `q`. -/
def routedRun (rho delta : Option Route) (q : Val → Option Route) (v : Val) :
    EngineState × List Effect × RunResult :=
  executeTask (routedEngine rho delta q v) 9 initState "T" 0

/-- The run considered by the C6 counterexample: task `"T"` calling
`abort(false)` during its body and then returning. -/
def abortingRun : EngineState × List Effect × RunResult :=
  executeTask abortingEngine 9 initState "T" 0

/-- A concrete two-node graph used by the graph-handler witnesses. -/
def condWitnessGraph : AgentGraph :=
  { nodes := [("A", { name := "A" }), ("B", { name := "B" })],
    agentMessage := fun _ _ => "out",
    reasoningMsg := fun _ _ => "r" }

/-- A fresh graph execution state. -/
def graphInit : GraphState :=
  { results := [], completed := [], uuid := 0 }

/-! ## Theorems -/

theorem jget_serializeFields (fs : List (String × JVal)) (k : String) :
    jget (serializeFields fs) k = (jget fs k).map serializeState := by
  induction fs with
  | nil => rfl
  | cons p rest ih =>
    obtain ⟨k2, v⟩ := p
    by_cases h : k2 = k
    · simp [serializeFields, jget, h]
    · simp [serializeFields, jget, h, ih]

theorem serializeState_eq_jstr (v : JVal) (s : String) :
    serializeState v = .jstr s → v = .jstr s := by
  cases v <;> simp [serializeState]

theorem isTagMap_of_map_serialize (o : Option JVal) :
    isTagMap (o.map serializeState) = isTagMap o := by
  match o with
  | none => rfl
  | some v => cases v <;> simp [serializeState, isTagMap]

theorem isTagSetOrMap_of_isTagMap (o : Option JVal) :
    isTagMap o = true → isTagSetOrMap o = true := by
  match o with
  | none => simp [isTagMap]
  | some v =>
    cases v <;> simp only [isTagMap, isTagSetOrMap] <;> intro h <;> simp [h]

mutual

theorem serialize_collFree : (v : JVal) → collFree v = true → serializeState v = v
  | .jnull, _ => rfl
  | .jundef, _ => rfl
  | .jbool _, _ => rfl
  | .jnum _, _ => rfl
  | .jstr _, _ => rfl
  | .jset _, h => by simp [collFree] at h
  | .jmap _, h => by simp [collFree] at h
  | .jarr xs, h => by
    simp only [collFree] at h
    simp only [serializeState, serializeList_collFree xs h]
  | .jobj fs, h => by
    simp only [collFree] at h
    simp only [serializeState, serializeFields_collFree fs h]

theorem serializeList_collFree :
    (xs : List JVal) → collFreeList xs = true → serializeList xs = xs
  | [], _ => rfl
  | x :: xs, h => by
    simp only [collFreeList, Bool.and_eq_true] at h
    simp only [serializeList, serialize_collFree x h.1, serializeList_collFree xs h.2]

theorem serializeFields_collFree :
    (fs : List (String × JVal)) → collFreeFields fs = true → serializeFields fs = fs
  | [], _ => rfl
  | (k, v) :: fs, h => by
    simp only [collFreeFields, Bool.and_eq_true] at h
    simp only [serializeFields, serialize_collFree v h.1, serializeFields_collFree fs h.2]

end

mutual

theorem deserialize_serialize :
    (v : JVal) → roundtripSafe v = true → deserializeState (serializeState v) = v
  | .jnull, _ => rfl
  | .jundef, _ => rfl
  | .jbool _, _ => rfl
  | .jnum _, _ => rfl
  | .jstr _, _ => rfl
  | .jset xs, h => by
    simp only [roundtripSafe] at h
    simp [serializeState, deserializeState, jget, serializeList_collFree xs h]
  | .jmap fs, h => by
    simp only [roundtripSafe] at h
    simp [serializeState, deserializeState, jget, isTagMap, jtruthy, jsEntries,
      serializeFields_collFree fs h]
  | .jarr xs, h => by
    simp only [roundtripSafe] at h
    simp only [serializeState, deserializeState,
      deserializeList_serializeList xs h]
  | .jobj fs, h => by
    simp only [roundtripSafe, Bool.and_eq_true, Bool.not_eq_true'] at h
    obtain ⟨h1, h2⟩ := h
    simp only [serializeState, deserializeState]
    split
    · rename_i xs heqt heqv
      exfalso
      rw [jget_serializeFields] at heqt
      match hw : jget fs "type" with
      | none => rw [hw] at heqt; simp at heqt
      | some w =>
        rw [hw] at heqt
        simp only [Option.map_some', Option.some.injEq] at heqt
        obtain rfl := serializeState_eq_jstr w _ heqt
        rw [hw] at h2
        simp [isTagSetOrMap] at h2
    · rw [if_neg]
      · rw [deserializeFields_serializeFields fs h1]
      · rw [jget_serializeFields, isTagMap_of_map_serialize]
        intro hcon
        rw [Bool.and_eq_true] at hcon
        have := isTagSetOrMap_of_isTagMap _ hcon.1
        rw [h2] at this
        exact Bool.false_ne_true this

theorem deserializeList_serializeList :
    (xs : List JVal) → roundtripSafeList xs = true →
      deserializeList (serializeList xs) = xs
  | [], _ => rfl
  | x :: xs, h => by
    simp only [roundtripSafeList, Bool.and_eq_true] at h
    simp only [serializeList, deserializeList, deserialize_serialize x h.1,
      deserializeList_serializeList xs h.2]

theorem deserializeFields_serializeFields :
    (fs : List (String × JVal)) → roundtripSafeFields fs = true →
      deserializeFields (serializeFields fs) = fs
  | [], _ => rfl
  | (k, v) :: fs, h => by
    simp only [roundtripSafeFields, Bool.and_eq_true] at h
    simp only [serializeFields, deserializeFields, deserialize_serialize v h.1,
      deserializeFields_serializeFields fs h.2]

end

/-- C7: deserialization inverts the serialization contract — a
`{type:"Set", value:[...]}` envelope deserializes to a `Set` of exactly those
elements, a `{type:"Map", value:{...}}` envelope to a `Map` of exactly those
entries, and serialize-then-deserialize is the structural identity — amended:
the identity holds on roundtrip-safe snapshots, i.e. those whose `Set`
elements and `Map` values contain no nested `Set`/`Map` (deserialization does
not recurse inside reconstructed collections) and which contain no plain
object with a `type` field equal to `"Set"` or `"Map"`. -/
theorem c7_serialization_roundtrip :
    (∀ xs : List JVal,
        deserializeState (.jobj [("type", .jstr "Set"), ("value", .jarr xs)]) = .jset xs)
  ∧ (∀ fs : List (String × JVal),
        deserializeState (.jobj [("type", .jstr "Map"), ("value", .jobj fs)]) = .jmap fs)
  ∧ (∀ v : JVal, roundtripSafe v = true → deserializeState (serializeState v) = v) := by
  refine ⟨fun xs => ?_, fun fs => ?_, fun v h => deserialize_serialize v h⟩
  · simp [deserializeState, jget]
  · simp [deserializeState, jget, isTagMap, jtruthy, jsEntries]

/-- C7 counterexample: the round-trip is not the structural identity on every
snapshot containing Sets and Maps — a Map whose value holds a Set comes back
with the nested Set envelope left as a plain object. -/
theorem c7_roundtrip_counterexample :
    ¬ (deserializeState (serializeState (.jmap [("k", .jset [.jnum 1])])) =
        (JVal.jmap [("k", .jset [.jnum 1])])) := by
  have hev : deserializeState (serializeState (.jmap [("k", .jset [.jnum 1])])) =
      (JVal.jmap [("k", .jobj [("type", .jstr "Set"), ("value", .jarr [.jnum 1])])]) := rfl
  rw [hev]
  simp

/-- C7 witness: a workflow-state-shaped snapshot (a Set of task names and a
string-keyed Map of primitive task data) round-trips. -/
theorem c7_roundtrip_witness :
    deserializeState (serializeState (.jobj
        [("completedTasks", .jset [.jstr "A"]), ("taskData", .jmap [("A", .jnum 1)])])) =
      (JVal.jobj
        [("completedTasks", .jset [.jstr "A"]), ("taskData", .jmap [("A", .jnum 1)])]) :=
  c7_serialization_roundtrip.2.2 _ (by rfl)




theorem memB_append_single (l : List String) (x : String) :
    memB (l ++ [x]) x = true := by
  induction l with
  | nil => simp [memB]
  | cons y rest ih => by_cases h : y = x <;> simp [memB, h, ih]

theorem memB_addElem (l : List String) (x : String) :
    memB (addElem l x) x = true := by
  by_cases h : memB l x = true
  · rw [addElem, if_pos h]; exact h
  · rw [addElem, if_neg h]; exact memB_append_single l x

theorem memB_removeElem (l : List String) (x : String) :
    memB (removeElem l x) x = false := by
  induction l with
  | nil => rfl
  | cons y rest ih =>
    by_cases h : y = x
    · simpa [removeElem, h] using ih
    · simpa [removeElem, memB, h] using ih

/-- C1 (amended): for a task invoked without `timeoutMs`, a call to
`interrupt(d)` marks the task complete with `d`, records a breakpoint
`{id, taskName, data}`, hands the snapshot (containing the breakpoint and the
completion) to the persistence layer before the `BreakpointError` propagates,
and the thrown `BreakpointError` unwinds the attempt loop cleanly: the run
returns normally after a single attempt.  (For tasks configured with
`timeoutMs` the claim fails: see the counterexample.) -/
theorem c1_interrupt_breakpoint (retries : Nat) (d d0 : Val) (cont : InterruptCont) :
    (interruptRun retries none d cont d0).2.2 = .ret none ∧
    memB (interruptRun retries none d cont d0).1.completed "T" = true ∧
    lookupA (interruptRun retries none d cont d0).1.taskData "T" = some d ∧
    (interruptRun retries none d cont d0).1.bpTask = some "T" ∧
    (interruptRun retries none d cont d0).1.bpData = some d ∧
    (interruptRun retries none d cont d0).1.bpId = some 0 ∧
    (interruptRun retries none d cont d0).2.1 =
      [.execCall "T" 0 true, .taskExecutionEvt "T" 1,
        .persist (interruptRun retries none d cont d0).1] :=
  ⟨rfl, rfl, rfl, rfl, rfl, rfl, rfl⟩

/-- C1 counterexample: for a task configured with `timeoutMs`, the parameter
bundle built by `executeTaskWithTimeout` carries a no-op `interrupt`: calling
`interrupt(7)` creates no breakpoint, throws no `BreakpointError` (the body
continues and its value 9 is what completes the task), so the claim fails for
tasks with a timeout. -/
theorem c1_timeout_interrupt_counterexample :
    (interruptRun 0 (some 5) 7 (.thenRet 9 none) 0).1.bpTask = none ∧
    ¬ ((interruptRun 0 (some 5) 7 (.thenRet 9 none) 0).1.bpData = some 7) ∧
    (interruptRun 0 (some 5) 7 (.thenRet 9 none) 0).2.2 = .ret (some 9) ∧
    lookupA (interruptRun 0 (some 5) 7 (.thenRet 9 none) 0).1.taskData "T" = some 9 := by
  refine ⟨rfl, by decide, rfl, rfl⟩

/-- C2 (amended): a task completing successfully through `executeTask` emits
the `taskExecution` event twice per completion — once inside
`markTaskComplete` and once from the post-completion emit — both carrying a
count equal to the task's total number of completions so far. -/
theorem c2_two_events_per_completion (c v : Nat) :
    ((plainRun c v).2.1.filter isTaskExecutionEvt) =
      [.taskExecutionEvt "B" (c + 1), .taskExecutionEvt "B" (c + 1)] ∧
    (plainRun c v).2.2 = .ret (some v) ∧
    countOf (plainRun c v).1 "B" = c + 1 :=
  ⟨rfl, rfl, rfl⟩

/-- C2 counterexample: task `B` completing for the first time yields two
`taskExecution:{taskName:"B",count:1}` events, not exactly one. -/
theorem c2_single_event_counterexample :
    ¬ (((plainRun 0 5).2.1.filter isTaskExecutionEvt).length = 1) ∧
    ((plainRun 0 5).2.1.filter isTaskExecutionEvt) =
      [.taskExecutionEvt "B" 1, .taskExecutionEvt "B" 1] := by
  refine ⟨by decide, rfl⟩

/-- C6 (amended): once `aborted ∧ ¬graceful` holds, every `executeTask` call
returns immediately without invoking `execute` (empty effect trace, unchanged
state) and `markTaskComplete` performs no transition and emits nothing.  (The
post-completion emit of an `executeTask` invocation already past its `execute`
can still produce one `taskExecution` event after the abort: see the
counterexample.) -/
theorem c6_abort_blocks_scheduling (eng : Engine) (f : Nat) (st : EngineState)
    (name : String) (data v : Val)
    (hab : st.aborted = true) (hg : st.graceful = false) :
    executeTask eng (f + 1) st name data = (st, [], .ret none) ∧
    markTaskComplete st name v = (st, []) := by
  constructor
  · simp [executeTask, hab, hg]
  · simp [markTaskComplete, hab, hg]

/-- C6 witness: a concrete aborted state. -/
theorem c6_abort_witness :
    executeTask (plainEngine 5) 1 { initState with aborted := true } "B" 0 =
      ({ initState with aborted := true }, [], .ret none) ∧
    markTaskComplete { initState with aborted := true } "B" 3 =
      ({ initState with aborted := true }, []) :=
  c6_abort_blocks_scheduling (plainEngine 5) 0 { initState with aborted := true } "B" 0 3
    rfl rfl

/-- C6 counterexample: a task that calls `abort(false)` during its body: after
the `abortCalled` effect, the engine still emits a `taskExecution` event (the
unconditional post-completion emit, with the stale count 0), so a
`taskExecution` event does occur after `abort(graceful=false)`. -/
theorem c6_event_after_abort_counterexample :
    abortingRun.2.1.get? 1 = some (.abortCalled false) ∧
    abortingRun.2.1.get? 3 = some (.taskExecutionEvt "T" 0) ∧ (1 : Nat) < 3 := by
  refine ⟨by decide, by decide, by decide⟩



theorem natLeB_eq_true (a b : Nat) : natLeB a b = true ↔ a ≤ b := by
  induction a generalizing b with
  | zero => simp [natLeB]
  | succ a ih =>
    cases b with
    | zero => simp [natLeB]
    | succ b => simpa [natLeB, Nat.succ_le_succ_iff] using ih b

theorem natLtB_eq_true (a b : Nat) : natLtB a b = true ↔ a < b := by
  rw [natLtB, natLeB_eq_true]
  omega

/-- Unfolding of the attempt loop for a task that throws a non-breakpoint
error on every attempt and has no `onError` handler: starting at attempt `k`
with `m` retries remaining (`k + m = retryCount`) and sufficient fuel, the
loop performs exactly the attempts `k..k+m`, leaves the state untouched, and
rethrows the error. -/
theorem attemptLoop_throw_all (eng : Engine) (cfgT : TaskConfig) (name : String)
    (e : Err) (data : Val)
    (hexec : ∀ i, cfgT.execute i = { action := .throwErr e })
    (honerr : cfgT.onError = none) (hne : e ≠ .breakpointErr) :
    ∀ (m f k : Nat) (st : EngineState) (tr : Option Route),
      k + m = cfgT.retryCount → m + 1 ≤ f →
      attemptLoop eng f name cfgT data st tr k =
        (st, (List.range' k (m + 1)).map
            (fun i => Effect.execCall name i (memB st.running name)),
          .thrown e) := by
  intro m
  induction m with
  | zero =>
    intro f k st tr hk hf
    obtain ⟨f2, rfl⟩ : ∃ f2, f = f2 + 1 := ⟨f - 1, by omega⟩
    have hguard : natLeB k cfgT.retryCount = true := by
      rw [natLeB_eq_true]; omega
    have hexh : natLtB cfgT.retryCount (k + 1) = true := by
      rw [natLtB_eq_true]; omega
    simp [attemptLoop, hexec k, hguard, hexh, hne, honerr, applyAbort, orElseR, List.range']
  | succ m ih =>
    intro f k st tr hk hf
    obtain ⟨f2, rfl⟩ : ∃ f2, f = f2 + 1 := ⟨f - 1, by omega⟩
    have hguard : natLeB k cfgT.retryCount = true := by
      rw [natLeB_eq_true]; omega
    have hexh : natLtB cfgT.retryCount (k + 1) = false := by
      rw [← Bool.not_eq_true, natLtB_eq_true]; omega
    have hrec := ih f2 (k + 1) st tr (by omega) (by omega)
    simp [attemptLoop, hexec k, hguard, hexh, hne, honerr, applyAbort, orElseR, hrec, List.range']

/-- Unfolding of `executeTask` down to the attempt loop for a not-yet-run,
not-yet-completed task in a non-aborted state. -/
theorem executeTask_enters_loop (eng : Engine) (cfgT : TaskConfig) (name : String)
    (data : Val) (f : Nat) (st : EngineState)
    (hlook : lookupA eng.tasks name = some cfgT)
    (hab : st.aborted = false)
    (hdeps : cfgT.dependencies.all (fun d => memB st.completed d) = true)
    (hcomp : memB st.completed name = false)
    (hrun : memB st.running name = false) :
    executeTask eng (f + 1) st name data =
      attemptLoop eng f name cfgT data
        { st with running := addElem st.running name } none 0 := by
  simp [executeTask, hlook, hab, hdeps, hcomp, hrun]

/-- C8: a task with `retryCount = 0` whose `execute` throws a non-breakpoint
error on every invocation and has no `onError` handler is attempted exactly
once and the error is rethrown. -/
theorem c8_single_attempt_rethrow (eng : Engine) (cfgT : TaskConfig) (name : String)
    (data : Val) (f : Nat) (st : EngineState) (e : Err)
    (hlook : lookupA eng.tasks name = some cfgT)
    (hexec : ∀ i, cfgT.execute i = { action := .throwErr e })
    (hretry : cfgT.retryCount = 0)
    (honerr : cfgT.onError = none) (hne : e ≠ .breakpointErr)
    (hab : st.aborted = false)
    (hdeps : cfgT.dependencies.all (fun d => memB st.completed d) = true)
    (hcomp : memB st.completed name = false)
    (hrun : memB st.running name = false)
    (hf : 1 ≤ f) :
    (executeTask eng (f + 1) st name data).2.2 = .thrown e ∧
    (executeTask eng (f + 1) st name data).2.1 = [.execCall name 0 true] ∧
    ((executeTask eng (f + 1) st name data).2.1.filter isExecCall).length = 1 := by
  rw [executeTask_enters_loop eng cfgT name data f st hlook hab hdeps hcomp hrun,
    attemptLoop_throw_all eng cfgT name e data hexec honerr hne 0 f 0 _ none
      (by omega) (by omega)]
  simp [List.range', memB_addElem, isExecCall]

/-- C8 witness: the concrete `failingRun` instance with `retryCount = 0`. -/
theorem c8_witness :
    (failingRun 0 (.runtime 3)).2.2 = .thrown (.runtime 3) ∧
    (failingRun 0 (.runtime 3)).2.1 = [.execCall "T" 0 true] ∧
    ((failingRun 0 (.runtime 3)).2.1.filter isExecCall).length = 1 :=
  c8_single_attempt_rethrow (failingEngine 0 (.runtime 3)) (failingTask 0 (.runtime 3))
    "T" 0 8 initState (.runtime 3) rfl (fun _ => rfl) rfl rfl (by decide) rfl rfl rfl rfl
    (by omega)

/-- C3 (amended): a task name is added to `runningTasks` before `execute` is
called (the first effect of the run observes membership) and is removed by
`markTaskComplete` on completion; but in the failure case in which every
attempt throws and the error is rethrown, the name is NOT removed: it remains
in `runningTasks` after `executeTask` rethrows. -/
theorem c3_running_tasks_membership (eng : Engine) (cfgT : TaskConfig) (name : String)
    (data : Val) (f : Nat) (st : EngineState) (e : Err) (retries : Nat)
    (hlook : lookupA eng.tasks name = some cfgT)
    (hexec : ∀ i, cfgT.execute i = { action := .throwErr e })
    (hretry : cfgT.retryCount = retries)
    (honerr : cfgT.onError = none) (hne : e ≠ .breakpointErr)
    (hab : st.aborted = false)
    (hdeps : cfgT.dependencies.all (fun d => memB st.completed d) = true)
    (hcomp : memB st.completed name = false)
    (hrun : memB st.running name = false)
    (hf : retries + 1 ≤ f) :
    (executeTask eng (f + 1) st name data).2.1.head? = some (.execCall name 0 true) ∧
    (∀ (st2 : EngineState) (v : Val), st2.aborted = false →
        memB (markTaskComplete st2 name v).1.running name = false) ∧
    (executeTask eng (f + 1) st name data).2.2 = .thrown e ∧
    memB (executeTask eng (f + 1) st name data).1.running name = true := by
  rw [executeTask_enters_loop eng cfgT name data f st hlook hab hdeps hcomp hrun,
    attemptLoop_throw_all eng cfgT name e data hexec honerr hne retries f 0 _ none
      (by omega) (by omega)]
  refine ⟨?_, ?_, rfl, ?_⟩
  · simp [List.range', memB_addElem]
  · intro st2 v hab2
    simp [markTaskComplete, hab2, memB_removeElem]
  · simp [memB_addElem]

/-- C3 counterexample: after `executeTask` rethrows a failing task's error,
the task name is still in `runningTasks` — it is not removed after the
attempt ends in the failure case. -/
theorem c3_running_counterexample :
    (failingRun 0 (.runtime 0)).2.2 = .thrown (.runtime 0) ∧
    ¬ (memB (failingRun 0 (.runtime 0)).1.running "T" = false) := by
  refine ⟨rfl, by decide⟩

/-- C3 witness: the concrete `failingRun` instance. -/
theorem c3_witness :
    (failingRun 1 (.runtime 0)).2.1.head? = some (.execCall "T" 0 true) ∧
    (∀ (st2 : EngineState) (v : Val), st2.aborted = false →
        memB (markTaskComplete st2 "T" v).1.running "T" = false) ∧
    (failingRun 1 (.runtime 0)).2.2 = .thrown (.runtime 0) ∧
    memB (failingRun 1 (.runtime 0)).1.running "T" = true :=
  c3_running_tasks_membership (failingEngine 1 (.runtime 0)) (failingTask 1 (.runtime 0))
    "T" 0 9 initState (.runtime 0) 1 rfl (fun _ => rfl) rfl rfl (by decide) rfl rfl rfl rfl
    (by omega)



/-- Unfolding of the attempt loop for a task that throws a non-breakpoint
error on every attempt and has an `onError` handler that neither throws nor
supplies a result: the handler is invoked after every failed attempt
(whatever `retry` it returns), and once attempts are exhausted the original
error is rethrown, the state untouched. -/
theorem attemptLoop_onerror_every_attempt (eng : Engine) (cfgT : TaskConfig)
    (name : String) (e : Err) (data : Val) (h : Nat → HandlerResult)
    (hexec : ∀ i, cfgT.execute i = { action := .throwErr e })
    (honerr : cfgT.onError = some h)
    (hh : ∀ i, (h i).hthrows = false ∧ (h i).result = none)
    (hne : e ≠ .breakpointErr) :
    ∀ (m f k : Nat) (st : EngineState) (tr : Option Route),
      k + m = cfgT.retryCount → m + 1 ≤ f →
      (attemptLoop eng f name cfgT data st tr k).1 = st ∧
      (attemptLoop eng f name cfgT data st tr k).2.2 = .thrown e ∧
      (attemptLoop eng f name cfgT data st tr k).2.1.filter isExecCall =
        (List.range' k (m + 1)).map
          (fun i => Effect.execCall name i (memB st.running name)) ∧
      (attemptLoop eng f name cfgT data st tr k).2.1.filter isOnErrorCall =
        (List.range' k (m + 1)).map (fun i => Effect.onErrorCall name i) := by
  intro m
  induction m with
  | zero =>
    intro f k st tr hk hf
    obtain ⟨f2, rfl⟩ : ∃ f2, f = f2 + 1 := ⟨f - 1, by omega⟩
    have hguard : natLeB k cfgT.retryCount = true := by
      rw [natLeB_eq_true]; omega
    have hretrycond : natLeB (k + 1) cfgT.retryCount = false := by
      rw [← Bool.not_eq_true, natLeB_eq_true]; omega
    have hexh : natLtB cfgT.retryCount (k + 1) = true := by
      rw [natLtB_eq_true]; omega
    simp [attemptLoop, hexec k, hguard, hretrycond, hexh, hne, honerr, applyAbort, orElseR,
      (hh k).1, (hh k).2, List.range', isExecCall, isOnErrorCall]
  | succ m ih =>
    intro f k st tr hk hf
    obtain ⟨f2, rfl⟩ : ∃ f2, f = f2 + 1 := ⟨f - 1, by omega⟩
    have hguard : natLeB k cfgT.retryCount = true := by
      rw [natLeB_eq_true]; omega
    have hretrycond : natLeB (k + 1) cfgT.retryCount = true := by
      rw [natLeB_eq_true]; omega
    have hexh : natLtB cfgT.retryCount (k + 1) = false := by
      rw [← Bool.not_eq_true, natLtB_eq_true]; omega
    have hrec := ih f2 (k + 1) st tr (by omega) (by omega)
    by_cases hr : (h k).retry
    · simp [attemptLoop, hexec k, hguard, hretrycond, hexh, hne, honerr, applyAbort, orElseR,
        (hh k).1, (hh k).2, hr, hrec.1, hrec.2.1, hrec.2.2.1, hrec.2.2.2,
        List.range', isExecCall, isOnErrorCall]
    · simp [attemptLoop, hexec k, hguard, hretrycond, hexh, hne, honerr, applyAbort, orElseR,
        (hh k).1, (hh k).2, hr, hrec.1, hrec.2.1, hrec.2.2.1, hrec.2.2.2,
        List.range', isExecCall, isOnErrorCall]

/-- C4 (amended): for a task with an `onError` handler whose `execute` throws
a non-breakpoint error on every attempt (handler neither throwing nor
supplying a result), the handler is invoked after EVERY failed attempt — not
only after the retries are exhausted — and the error is rethrown once
`attempt > retryCount`. -/
theorem c4_onerror_invoked_every_attempt (eng : Engine) (cfgT : TaskConfig)
    (name : String) (data : Val) (f : Nat) (st : EngineState) (e : Err)
    (retries : Nat) (h : Nat → HandlerResult)
    (hlook : lookupA eng.tasks name = some cfgT)
    (hexec : ∀ i, cfgT.execute i = { action := .throwErr e })
    (hretry : cfgT.retryCount = retries)
    (honerr : cfgT.onError = some h)
    (hh : ∀ i, (h i).hthrows = false ∧ (h i).result = none)
    (hne : e ≠ .breakpointErr)
    (hab : st.aborted = false)
    (hdeps : cfgT.dependencies.all (fun d => memB st.completed d) = true)
    (hcomp : memB st.completed name = false)
    (hrun : memB st.running name = false)
    (hf : retries + 1 ≤ f) :
    (executeTask eng (f + 1) st name data).2.2 = .thrown e ∧
    (executeTask eng (f + 1) st name data).2.1.filter isOnErrorCall =
      (List.range' 0 (retries + 1)).map (fun i => Effect.onErrorCall name i) ∧
    (executeTask eng (f + 1) st name data).2.1.filter isExecCall =
      (List.range' 0 (retries + 1)).map (fun i => Effect.execCall name i true) := by
  rw [executeTask_enters_loop eng cfgT name data f st hlook hab hdeps hcomp hrun]
  have hall := attemptLoop_onerror_every_attempt eng cfgT name e data h hexec honerr hh
    hne retries f 0 { st with running := addElem st.running name } none (by omega) (by omega)
  refine ⟨hall.2.1, ?_, ?_⟩
  · rw [hall.2.2.2]
  · rw [hall.2.2.1]
    simp [memB_addElem]

/-- C4 counterexample: with `retryCount = 1`, the `onError` handler is already
invoked after the first failed attempt (trace index 1), while a retry attempt
remains and indeed follows (trace index 2). -/
theorem c4_onerror_counterexample :
    (handledFailingRun 1 (.runtime 0) (fun _ => {})).2.1.get? 1 =
      some (.onErrorCall "T" 0) ∧
    (handledFailingRun 1 (.runtime 0) (fun _ => {})).2.1.get? 2 =
      some (.execCall "T" 1 true) ∧
    (handledFailingRun 1 (.runtime 0) (fun _ => {})).2.2 = .thrown (.runtime 0) := by
  refine ⟨by decide, by decide, by decide⟩

/-- C4 witness: the concrete `handledFailingRun` instance with one retry. -/
theorem c4_witness :
    (handledFailingRun 1 (.runtime 0) (fun _ => {})).2.2 = .thrown (.runtime 0) ∧
    (handledFailingRun 1 (.runtime 0) (fun _ => {})).2.1.filter isOnErrorCall =
      [.onErrorCall "T" 0, .onErrorCall "T" 1] ∧
    (handledFailingRun 1 (.runtime 0) (fun _ => {})).2.1.filter isExecCall =
      [.execCall "T" 0 true, .execCall "T" 1 true] := by
  have := c4_onerror_invoked_every_attempt (handledFailingEngine 1 (.runtime 0) (fun _ => {}))
    (handledFailingTask 1 (.runtime 0) (fun _ => {})) "T" 0 9 initState (.runtime 0) 1
    (fun _ => {}) rfl (fun _ => rfl) rfl rfl (fun _ => ⟨rfl, rfl⟩) (by decide) rfl rfl rfl rfl
    (by omega)
  simpa [List.range'] using this



/-- For a task whose first attempt returns a value, with `retryCount = 0` and
no `onError` handler, the attempt loop's final state and effect trace are
exactly those of the `try` block continuation (`successPath`), whatever its
outcome; and a returned value becomes the run's return value. -/
theorem attemptLoop_retval_trace (eng : Engine) (f : Nat) (name : String)
    (cfgT : TaskConfig) (data : Val) (st : EngineState) (tr : Option Route)
    (rho delta : Option Route) (v : Val)
    (hexec0 : cfgT.execute 0 = { redirect := rho, action := .retVal v delta })
    (honerr : cfgT.onError = none) (hrc : cfgT.retryCount = 0) :
    (attemptLoop eng (f + 1) name cfgT data st tr 0).1 =
      (successPath eng f name cfgT st [.execCall name 0 (memB st.running name)]
        (orElseR rho tr) v delta).1 ∧
    (attemptLoop eng (f + 1) name cfgT data st tr 0).2.1 =
      (successPath eng f name cfgT st [.execCall name 0 (memB st.running name)]
        (orElseR rho tr) v delta).2.1 ∧
    (∀ w, (successPath eng f name cfgT st [.execCall name 0 (memB st.running name)]
        (orElseR rho tr) v delta).2.2 = .returned w →
      (attemptLoop eng (f + 1) name cfgT data st tr 0).2.2 = .ret w) := by
  have hguard : natLeB 0 cfgT.retryCount = true := rfl
  have hexh : natLtB cfgT.retryCount 1 = true := by
    rw [natLtB_eq_true]; omega
  cases rho with
  | some r =>
    rcases hsp : successPath eng f name cfgT st [.execCall name 0 (memB st.running name)]
        (some r) v delta with ⟨s1, e1, o1⟩
    cases o1 with
    | returned w =>
      refine ⟨?_, ?_, ?_⟩ <;>
        simp [attemptLoop, hexec0, hguard, hexh, honerr, applyAbort, orElseR, hsp]
    | threw e =>
      by_cases hbe : e = Err.breakpointErr
      · subst hbe
        refine ⟨?_, ?_, ?_⟩ <;>
          simp [attemptLoop, hexec0, hguard, hexh, honerr, applyAbort, orElseR, hsp]
      · refine ⟨?_, ?_, ?_⟩ <;>
          simp [attemptLoop, hexec0, hguard, hexh, honerr, applyAbort, orElseR, hsp, hbe]
    | fuelBail =>
      refine ⟨?_, ?_, ?_⟩ <;>
        simp [attemptLoop, hexec0, hguard, hexh, honerr, applyAbort, orElseR, hsp]
  | none =>
    rcases hsp : successPath eng f name cfgT st [.execCall name 0 (memB st.running name)]
        tr v delta with ⟨s1, e1, o1⟩
    cases o1 with
    | returned w =>
      refine ⟨?_, ?_, ?_⟩ <;>
        simp [attemptLoop, hexec0, hguard, hexh, honerr, applyAbort, orElseR, hsp]
    | threw e =>
      by_cases hbe : e = Err.breakpointErr
      · subst hbe
        refine ⟨?_, ?_, ?_⟩ <;>
          simp [attemptLoop, hexec0, hguard, hexh, honerr, applyAbort, orElseR, hsp]
      · refine ⟨?_, ?_, ?_⟩ <;>
          simp [attemptLoop, hexec0, hguard, hexh, honerr, applyAbort, orElseR, hsp, hbe]
    | fuelBail =>
      refine ⟨?_, ?_, ?_⟩ <;>
        simp [attemptLoop, hexec0, hguard, hexh, honerr, applyAbort, orElseR, hsp]

/-- If the resolved successor is a single task name other than the literal
`"end"` and the empty string, `successPath` dispatches it: the `dispatch`
effect for that name and the task result is in the trace (whatever the
dispatched run does). -/
theorem successPath_dispatch_mem (eng : Engine) (f : Nat) (name : String)
    (cfgT : TaskConfig) (st : EngineState) (effPre : List Effect) (tr2 : Option Route)
    (v : Val) (nxt : Option Route) (nm : String)
    (hguard : ((markTaskComplete st name v).1.aborted &&
        !(markTaskComplete st name v).1.graceful) = false)
    (hres : resolveNext tr2 nxt (cfgT.route v) = some (.toTask nm))
    (hend : nm ≠ "end") (hemp : nm ≠ "") :
    Effect.dispatch nm v ∈ (successPath eng (f + 2) name cfgT st effPre tr2 v nxt).2.1 := by
  rcases hc : executeTask eng f (markTaskComplete st name v).1 nm v with ⟨s1, e1, r1⟩
  have htr : routeTruthy (.toTask nm) = true := by simp [routeTruthy, hemp]
  cases r1 with
  | ret w =>
    simp [successPath, hres, hguard, hend, htr, routePairs, dispatchList, hc]
    rcases hd : dispatchList eng f s1 [] with ⟨s2, e2, o2⟩
    cases o2 <;> simp
  | thrown e2 =>
    simp [successPath, hres, hguard, hend, htr, routePairs, dispatchList, hc]
  | fuelOut =>
    simp [successPath, hres, hguard, hend, htr, routePairs, dispatchList, hc]

set_option maxHeartbeats 1000000 in
/-- C5: after a task completes, its successor destination is resolved in
priority order — (i) the `redirectTo` argument, else (ii) the `next` field of
the return value, else (iii) the router's returned value (`resolveNext`) —
and whenever the resolved destination is the literal string `"end"`, the
engine persists and returns the result without dispatching any successor
task; a resolved single task name (neither `"end"` nor empty) is dispatched. -/
theorem c5_successor_resolution (rho delta : Option Route) (q : Val → Option Route)
    (v : Val) :
    (resolveNext rho delta (q v) = some (.toTask "end") →
        (routedRun rho delta q v).2.2 = .ret (some v) ∧
        (routedRun rho delta q v).2.1.filter isDispatch = [] ∧
        (routedRun rho delta q v).2.1.getLast? =
          some (.persist (routedRun rho delta q v).1)) ∧
    (∀ nm, resolveNext rho delta (q v) = some (.toTask nm) → nm ≠ "end" → nm ≠ "" →
        Effect.dispatch nm v ∈ (routedRun rho delta q v).2.1) ∧
    (resolveNext rho delta (q v) = none →
        (routedRun rho delta q v).2.2 = .ret (some v) ∧
        (routedRun rho delta q v).2.1.filter isDispatch = []) := by
  refine ⟨fun hres => ?_, fun nm hres hend hemp => ?_, fun hres => ?_⟩
  · rcases rho with _ | r
    · rcases delta with _ | r
      · simp only [resolveNext] at hres
        refine ⟨?_, ?_, ?_⟩ <;>
          simp [routedRun, executeTask, attemptLoop, successPath, routedEngine, routedTask,
            lookupA, initState, memB, addElem, removeElem, setA, countOf, markTaskComplete, natLeB, natLtB,
            applyAbort, persistEff, resolveNext, orElseR, hres, isDispatch]
      · simp only [resolveNext, Option.some.injEq] at hres
        subst hres
        refine ⟨?_, ?_, ?_⟩ <;>
          simp [routedRun, executeTask, attemptLoop, successPath, routedEngine, routedTask,
            lookupA, initState, memB, addElem, removeElem, setA, countOf, markTaskComplete, natLeB, natLtB,
            applyAbort, persistEff, resolveNext, orElseR, isDispatch]
    · simp only [resolveNext, Option.some.injEq] at hres
      subst hres
      refine ⟨?_, ?_, ?_⟩ <;>
        simp [routedRun, executeTask, attemptLoop, successPath, routedEngine, routedTask,
          lookupA, initState, memB, addElem, removeElem, setA, countOf, markTaskComplete, natLeB, natLtB,
          applyAbort, persistEff, resolveNext, orElseR, isDispatch]
  · have hstep : routedRun rho delta q v =
        attemptLoop (routedEngine rho delta q v) (7 + 1) "T" (routedTask rho delta q v) 0
          { initState with running := ["T"] } none 0 := rfl
    have hAL := attemptLoop_retval_trace (routedEngine rho delta q v) 7 "T"
      (routedTask rho delta q v) 0 { initState with running := ["T"] } none rho delta v
      rfl rfl rfl
    have horo : orElseR rho none = rho := by cases rho <;> rfl
    rw [horo] at hAL
    rw [hstep, hAL.2.1]
    exact successPath_dispatch_mem (routedEngine rho delta q v) 5 "T"
      (routedTask rho delta q v) { initState with running := ["T"] }
      [.execCall "T" 0 (memB ({ initState with running := ["T"] } : EngineState).running "T")]
      rho v delta nm rfl hres hend hemp
  · rcases rho with _ | r
    · rcases delta with _ | r
      · simp only [resolveNext] at hres
        constructor <;>
          simp [routedRun, executeTask, attemptLoop, successPath, routedEngine, routedTask,
            lookupA, initState, memB, addElem, removeElem, setA, countOf, markTaskComplete,
            natLeB, natLtB, applyAbort, persistEff, resolveNext, orElseR, hres, isDispatch]
      · simp [resolveNext] at hres
    · simp [resolveNext] at hres
/-- C5 witness: a redirect to `"end"` persists and halts without dispatching;
a redirect to a plain name is dispatched. -/
theorem c5_witness :
    ((routedRun (some (.toTask "end")) none (fun _ => none) 5).2.2 = .ret (some 5) ∧
      (routedRun (some (.toTask "end")) none (fun _ => none) 5).2.1.filter isDispatch = [] ∧
      (routedRun (some (.toTask "end")) none (fun _ => none) 5).2.1.getLast? =
        some (.persist (routedRun (some (.toTask "end")) none (fun _ => none) 5).1)) ∧
    Effect.dispatch "X" 5 ∈ (routedRun (some (.toTask "X")) none (fun _ => none) 5).2.1 :=
  ⟨(c5_successor_resolution (some (.toTask "end")) none (fun _ => none) 5).1 rfl,
    (c5_successor_resolution (some (.toTask "X")) none (fun _ => none) 5).2.1 "X" rfl
      (by decide) (by decide)⟩



/-- One loop-pattern edge with `maxIterations = 0` and no `outputTransform`
performs zero iterations: no effects, no responses pushed, and the final
response it leaves behind is the source response. -/
theorem loopHandleEdge_zero_iterations (g : AgentGraph) (st : GraphState)
    (responses : List MessageResponse) (src : String) (e : LoopEdge)
    (hmax : (e.config.getD {}).maxIterations = some 0)
    (hout : (e.config.getD {}).outputTransform = none) :
    (loopHandleEdge g st responses src src e).2.1 = [] ∧
    (loopHandleEdge g st responses src src e).2.2.1 = responses ∧
    (loopHandleEdge g st responses src src e).2.2.2 = src := by
  rcases hto : lookupA g.nodes e.eto with _ | toN <;>
    rcases hfrom : lookupA g.nodes e.efrom with _ | fromN <;>
      simp [loopHandleEdge, hto, hfrom, hmax, hout, loopIterations, joinSep]

/-- C9: a loop-pattern edge list in which every edge has `maxIterations = 0`
and no `outputTransform` performs zero iterations — no node execution (empty
effect trace), no responses appended — and the handler returns the source
response unchanged. -/
theorem c9_loop_zero_iterations (g : AgentGraph) (st : GraphState)
    (responses : List MessageResponse) (src : String) (edges : List LoopEdge)
    (hcfg : ∀ e ∈ edges, (e.config.getD {}).maxIterations = some 0 ∧
        (e.config.getD {}).outputTransform = none) :
    (loopHandle g st responses src edges).2.2.2 = src ∧
    (loopHandle g st responses src edges).2.1 = [] ∧
    (loopHandle g st responses src edges).2.2.1 = responses := by
  rw [loopHandle]
  induction edges generalizing st responses with
  | nil => exact ⟨rfl, rfl, rfl⟩
  | cons e rest ih =>
    have he := hcfg e (by simp)
    have hz := loopHandleEdge_zero_iterations g st responses src e he.1 he.2
    simp only [loopHandleList]
    rw [hz.1, hz.2.1, hz.2.2]
    have ihr := ih ((loopHandleEdge g st responses src src e).1) responses
      (fun x hx => hcfg x (by simp [hx]))
    exact ⟨ihr.1, by simp [ihr.2.1], ihr.2.2⟩

/-- C9 witness: a concrete two-node graph and a single zero-iteration loop
edge. -/
theorem c9_witness :
    (loopHandle condWitnessGraph graphInit [] "s"
        [{ efrom := "A", eto := "B", config := some { maxIterations := some 0 } }]).2.2.2 =
      "s" ∧
    (loopHandle condWitnessGraph graphInit [] "s"
        [{ efrom := "A", eto := "B", config := some { maxIterations := some 0 } }]).2.1 =
      [] ∧
    (loopHandle condWitnessGraph graphInit [] "s"
        [{ efrom := "A", eto := "B", config := some { maxIterations := some 0 } }]).2.2.1 =
      [] :=
  c9_loop_zero_iterations condWitnessGraph graphInit [] "s"
    [{ efrom := "A", eto := "B", config := some { maxIterations := some 0 } }]
    (fun e he => by
      simp only [List.mem_singleton] at he
      subst he
      exact ⟨rfl, rfl⟩)

/-- C10: the condition handler executes the destination node of an edge
exactly when `config.condition` is present and its immediate return value is
truthy (each fired edge receiving the source response); an edge with no
condition configured never fires; and a `Promise` return value — whatever it
would resolve to — is truthy, so such an edge always executes its
destination. -/
theorem c10_condition_gating (g : AgentGraph) (st : GraphState)
    (responses : List MessageResponse) (src : String) (edges : List CondEdge) :
    ((conditionHandle g st responses src edges).2.1.filter isNodeExecuted =
        (edges.filter (fun e => condFires e src)).map
          (fun e => GEffect.nodeExecuted e.eto src)) ∧
    (∀ e : CondEdge, e.config.bind CondConfig.condition = none →
        ∀ s, condFires e s = false) ∧
    (∀ b : Bool, condTruthy (.vPromise b) = true) := by
  refine ⟨?_, ?_, fun b => rfl⟩
  · induction edges generalizing st responses with
    | nil => rfl
    | cons e rest ih =>
      by_cases hf : condFires e src
      · simp [conditionHandle, hf, executeNode, isNodeExecuted, ih]
      · simp [conditionHandle, hf, ih]
  · intro e h s
    rcases e with ⟨ef, et, cfg⟩
    rcases cfg with _ | c
    · rfl
    · rcases c with ⟨cond⟩
      rcases cond with _ | f
      · rfl
      · simp at h

/-- C10 witness: an edge without a condition never fires; an edge whose
condition returns a `Promise` resolving to `false` still executes its
destination. -/
theorem c10_witness :
    condFires { efrom := "A", eto := "B", config := none } "s" = false ∧
    ((conditionHandle condWitnessGraph graphInit [] "s"
        [{ efrom := "A", eto := "B", config := some { condition := some (fun _ => CondVal.vPromise false) } }]).2.1.filter
      isNodeExecuted) = [.nodeExecuted "B" "s"] := by
  constructor
  · exact (c10_condition_gating condWitnessGraph graphInit [] "s" []).2.1
      { efrom := "A", eto := "B", config := none } rfl "s"
  · have := (c10_condition_gating condWitnessGraph graphInit [] "s"
      [{ efrom := "A", eto := "B", config := some { condition := some (fun _ => CondVal.vPromise false) } }]).1
    simpa [condFires, condTruthy] using this


end DeepNew
